import Mathlib

/-!
Verification of the ingestion-and-retrieval orchestration layer of the RAG
repository (src/backend/utils.ts and src/backend/gemini.ts, the latter
holding the LLM wrapper, the express handlers and the ChromaVectorDB class).
External capabilities (axios fetch plus cheerio parse, the generative calls,
the embedding provider, the chroma index search) are passed in as explicit
oracle functions; everything the repository's own code does is embedded
directly.
-/

namespace RAG

/-! ## Data model -/

/-- Value of a metadata field: the TS union of string, number and boolean. -/
inductive MetaVal where
  | str (s : String)
  | num (x : Float)
  | boolV (b : Bool)

/-- DocumentMetadata of vectorDB: a string-keyed record of metadata values. -/
abbrev Metadata := List (String × MetaVal)

/-- DocumentData of vectorDB: id, content, optional embedding, optional
metadata. -/
structure DocumentData where
  id : String
  content : String
  embedding : Option (List Float)
  metadata : Option Metadata

/-! ## scrapeArticle (utils.ts) -/

/-- The HTML tag kinds the scraper selects with h1, h2, h3, p, ul, li. -/
inductive HtmlTag where
  | h1
  | h2
  | h3
  | p
  | ul
  | li

/-- Outcome of the axios fetch plus the cheerio queries, the external part of
scrapeArticle: the first h1 text, the first time element text, and the
selected body elements as pairs of tag and text in document order. -/
structure Page where
  titleRaw : String
  timeRaw : String
  elements : List (HtmlTag × String)

/-- ProcessedArticle of utils.ts. -/
structure ProcessedArticle where
  title : String
  content : String
  url : String
  time : Option String

/-- One step of the markdown-building forEach of scrapeArticle: the switch on
the element tag, threading the inList flag, which the first ul sets and which
is never reset. -/
def mdStep (acc : List String × Bool) (e : HtmlTag × String) : List String × Bool :=
  match e.1 with
  | .h1 => (acc.1 ++ ["# " ++ e.2], acc.2)
  | .h2 => (acc.1 ++ ["## " ++ e.2], acc.2)
  | .h3 => (acc.1 ++ ["### " ++ e.2], acc.2)
  | .p => (acc.1 ++ [e.2], acc.2)
  | .ul => if acc.2 then acc else (acc.1 ++ [""], true)
  | .li => if acc.2 then (acc.1 ++ ["- " ++ e.2], acc.2) else acc

/-- The sentinel article scrapeArticle returns from its catch clause. -/
def failedArticle (url : String) : ProcessedArticle :=
  { title := "Can not load information", content := "", url := url, time := none }

/-- scrapeArticle of utils.ts: run the fetch-and-parse oracle; on success
trim the title and time (an empty trimmed time becomes null), keep the
elements with non-empty trimmed text, build the markdown lines, unshift the
title heading and then the publication-date line when present, and join the
lines with a double newline. On a fetch error the sentinel is returned and
the error never propagates: the return type is a plain ProcessedArticle. -/
def scrapeArticle (fetch : String → Except String Page) (url : String) : ProcessedArticle :=
  match fetch url with
  | .error _ => failedArticle url
  | .ok page =>
    let title := page.titleRaw.trim
    let timeT := page.timeRaw.trim
    let time := if timeT = "" then none else some timeT
    let elements := page.elements.filterMap fun e =>
      let t := e.2.trim
      if t = "" then none else some (e.1, t)
    let lines0 := (elements.foldl mdStep ([], false)).1
    let lines1 := if title = "" then lines0 else ("# " ++ title) :: lines0
    let lines2 := match time with
      | some t => ("**Publication date:** " ++ t) :: lines1
      | none => lines1
    { title := title, content := String.intercalate "\n\n" lines2, url := url, time := time }

/-! ## getClusteredText (utils.ts) -/

/-- A JSON value as far as the validator inspects it: a string, or anything
else (numbers, objects, null, missing fields of non-object elements). -/
inductive JVal where
  | str (s : String)
  | nonStr

/-- One element of the parsed answer: its heading and content fields. -/
structure RawBlock where
  heading : JVal
  content : JVal

/-- Outcome of JSON.parse on the cleaned generative answer: an array of
elements, or some other JSON value. -/
inductive ParseOut where
  | arr (bs : List RawBlock)
  | nonArr

def MIN_CONTENT_LENGTH : Nat := 100

def MAX_RETRIES : Nat := 1

/-- The per-element validation of getClusteredText: heading and content are
strings and the content length is at least MIN_CONTENT_LENGTH. -/
def blockValid (b : RawBlock) : Bool :=
  match b.heading, b.content with
  | .str _, .str c => decide (MIN_CONTENT_LENGTH ≤ c.length)
  | _, _ => false

/-- The retry loop of getClusteredText. attemptO combines, for each attempt,
the generateResponse call, the code-fence stripping and JSON.parse; the
generative call throwing or the parse failing is an error outcome. An
attempt parsed to an array whose elements all validate is returned whole;
any other outcome moves to the next attempt; with the attempts exhausted the
empty list is returned. -/
def clusterLoop (attemptO : Nat → Except String ParseOut) : Nat → Nat → List RawBlock
  | _, 0 => []
  | attempt, fuel + 1 =>
    match attemptO attempt with
    | .ok (.arr bs) => if bs.all blockValid then bs else clusterLoop attemptO (attempt + 1) fuel
    | .ok .nonArr => clusterLoop attemptO (attempt + 1) fuel
    | .error _ => clusterLoop attemptO (attempt + 1) fuel

/-- getClusteredText of utils.ts: sanitize the text (double quotes become
single quotes) and run at most MAX_RETRIES attempts of the structuring call,
keyed by the sanitized article text. The function never throws. -/
def getClusteredText (genO : String → Nat → Except String ParseOut) (text : String) :
    List RawBlock :=
  clusterLoop (genO (text.replace "\x22" "\x27")) 0 MAX_RETRIES

/-! ## The URL regex of the agent handler -/

/-- The character class of the regex: any non-whitespace character. -/
def nonWs (c : Char) : Bool := !c.isWhitespace

/-- Does the character list start with the given pattern? -/
def startsWithChars : List Char → List Char → Bool
  | [], _ => true
  | _ :: _, [] => false
  | p :: ps, c :: cs => p == c && startsWithChars ps cs

def httpsChars : List Char := "https://".toList

def httpChars : List Char := "http://".toList

/-- Try the URL regex at this position: the scheme (with the optional s taken
greedily) followed by at least one non-whitespace character, the run taken
greedily to its end. Returns the matched text. -/
def matchUrlAt (cs : List Char) : Option String :=
  let after :=
    if startsWithChars httpsChars cs then some (httpsChars, cs.drop 8)
    else if startsWithChars httpChars cs then some (httpChars, cs.drop 7)
    else none
  match after with
  | none => none
  | some (scheme, rest) =>
    let run := rest.takeWhile nonWs
    if run.isEmpty then none else some (String.mk (scheme ++ run))

/-- The first match of the URL regex in the query, scanning left to right.
The agent handler inspects only whether the match list is non-empty and its
first element, which this function captures: none models a null match
result. -/
def firstUrl? : List Char → Option String
  | [] => none
  | c :: cs =>
    match matchUrlAt (c :: cs) with
    | some u => some u
    | none => firstUrl? cs

/-! ## The ChromaVectorDB state and error model -/

/-- Errors of the vectorDB module, one constructor per distinct throw site:
the collection guard (thrown before the try block of every operation), the
invalid-response check of queryDocuments, the wrapped embedding failure of
generateEmbedding, and errors of the underlying index passed through. -/
inductive DBError where
  | notInitialized
  | invalidResponse
  | embeddingFailed
  | store (msg : String)

/-- A record as stored in a chroma collection after an add. -/
structure StoredDoc where
  id : String
  embedding : List Float
  metadata : Metadata
  content : String

/-- A chroma collection: its creation metadata and its records. -/
structure CollectionData where
  meta : Metadata
  docs : List StoredDoc

/-- The chroma server's state: its named collections. -/
structure ClientState where
  collections : List (String × CollectionData)

/-- The ChromaVectorDB instance state: the server's state and the collection
handle the instance holds, none until initializeCollection has run. -/
structure DBState where
  client : ClientState
  collection : Option String

/-- generateEmbedding: call the provider; any provider error is caught and
rethrown as the fixed embedding failure. -/
def generateEmbedding (provider : String → Except String (List Float)) (text : String) :
    Except DBError (List Float) :=
  match provider text with
  | .ok v => .ok v
  | .error _ => .error .embeddingFailed

/-- The metadata initializeCollection configures: cosine-similarity scoring. -/
def cosineMeta : Metadata := [("hnsw:space", .str "cosine")]

def lookupCollection (s : ClientState) (name : String) : Option CollectionData :=
  (s.collections.find? fun q => q.1 == name).map (fun q => q.2)

/-- getOrCreateCollection of the chroma client: open the named collection,
creating it with the given metadata only when no collection of that name
exists; the handle is stored in the instance state. -/
def getOrCreateCollection (s : DBState) (name : String) (meta : Metadata) : DBState :=
  match lookupCollection s.client name with
  | some _ => { s with collection := some name }
  | none =>
    { client := { collections := s.client.collections ++ [(name, { meta := meta, docs := [] })] },
      collection := some name }

/-- countCollections of the chroma client: how many collections the server
holds, of any name. -/
def countCollections (s : DBState) : Nat := s.client.collections.length

/-- Outcome of initializeCollection: the new state and whether the CSV
backfill ran. -/
structure InitOutcome where
  state : DBState
  backfillTriggered : Bool

/-- initializeCollection: get-or-create the named collection with the cosine
metadata, then count the server's collections and run the CSV backfill
exactly when that count is zero. The backfill's effect on the store is the
abstracted function backfill; its per-article outcomes are modelled by
initDBfromCSV below. -/
def initializeCollection (backfill : DBState → DBState) (s : DBState) (name : String) :
    InitOutcome :=
  let s1 := getOrCreateCollection s name cosineMeta
  if countCollections s1 = 0 then ⟨backfill s1, true⟩ else ⟨s1, false⟩

/-! ## addDocuments, queryDocuments, updateDocument, deleteDocuments -/

/-- Sequencing of fallible per-element actions: the observable outcome of
awaiting Promise.all over the mapped list (every rejection surfaces as the
call's error; the ok value keeps the list order). -/
def mapExcept (f : α → Except ε β) : List α → Except ε (List β)
  | [] => .ok []
  | x :: xs => (f x).bind fun y => (mapExcept f xs).map fun ys => y :: ys

/-- Resolve one document's embedding as addDocuments does: a document that
holds one keeps it, otherwise generateEmbedding runs on its content. -/
def resolveEmbedding (provider : String → Except String (List Float)) (doc : DocumentData) :
    Except DBError DocumentData :=
  match doc.embedding with
  | some e => .ok { doc with embedding := some e }
  | none => (generateEmbedding provider doc.content).map fun e => { doc with embedding := some e }

/-- The stored record a resolved document becomes in the batch write: the
metadata defaults to the empty record. -/
def toStored (d : DocumentData) : StoredDoc :=
  { id := d.id, embedding := d.embedding.getD [], metadata := d.metadata.getD [],
    content := d.content }

/-- The collection.add batch write: append the resolved documents to the
held collection's records. -/
def addToCollection (s : DBState) (name : String) (docs : List DocumentData) : DBState :=
  { s with client := { collections := s.client.collections.map fun q =>
      if q.1 == name then (q.1, { q.2 with docs := q.2.docs ++ docs.map toStored }) else q } }

/-- addDocuments: guard on the collection handle, resolve every document's
embedding (one embedding failure fails the whole call), then issue the one
batch write. An error result carries no state: the store is unchanged. -/
def addDocuments (provider : String → Except String (List Float)) (s : DBState)
    (documents : List DocumentData) : Except DBError DBState :=
  match s.collection with
  | none => .error .notInitialized
  | some cname =>
    (mapExcept (resolveEmbedding provider) documents).map fun docs =>
      addToCollection s cname docs

/-- The shape of a chroma query response: each of the four fields can be
missing, and each holds one row per query embedding; document texts within a
row can be null. -/
structure QueryResults where
  ids : Option (List (List String))
  documents : Option (List (List (Option String)))
  embeddings : Option (List (List (List Float)))
  metadatas : Option (List (List Metadata))

/-- queryDocuments: guard on the collection handle, embed the query text,
query the index with the query embedding and nResults topK (5 when the
caller passes none), check that none of the four response fields is missing,
then rebuild one DocumentData per id of the first row in the row's order. A
missing first row is the TypeError of indexing undefined, caught and
rethrown by the catch clause; a document text that is null, or a row shorter
than the id row, yields the empty-string content. -/
def queryDocuments (provider : String → Except String (List Float))
    (idx : List Float → Nat → QueryResults) (s : DBState)
    (queryText : String) (topK : Nat := 5) : Except DBError (List DocumentData) :=
  match s.collection with
  | none => .error .notInitialized
  | some _ =>
    (generateEmbedding provider queryText).bind fun queryEmbedding =>
      let results := idx queryEmbedding topK
      match results.ids, results.documents, results.embeddings, results.metadatas with
      | some idsRows, some docsRows, some embRows, some metaRows =>
        match idsRows.head? with
        | none => .error (.store "TypeError")
        | some ids0 =>
          mapExcept (fun q : Nat × String =>
            match docsRows.head?, embRows.head?, metaRows.head? with
            | some docs0, some emb0, some meta0 =>
              Except.ok
                { id := q.2,
                  content := ((docs0.get? q.1).join).getD "",
                  embedding := emb0.get? q.1,
                  metadata := meta0.get? q.1 }
            | _, _, _ => .error (.store "TypeError")) ids0.enum
      | _, _, _, _ => .error .invalidResponse

/-- updateDocument: guard on the collection handle, then the index replaces
the record with the matching id by the given embedding, metadata (defaulted
to the empty record) and content. -/
def updateDocument (s : DBState) (document : DocumentData) : Except DBError DBState :=
  match s.collection with
  | none => .error .notInitialized
  | some cname =>
    .ok { s with client := { collections := s.client.collections.map fun q =>
      if q.1 == cname then
        (q.1, { q.2 with docs := q.2.docs.map fun d =>
          if d.id == document.id then toStored document else d })
      else q } }

/-- deleteDocuments: guard on the collection handle, then the index removes
the records with the given ids. -/
def deleteDocuments (s : DBState) (ids : List String) : Except DBError DBState :=
  match s.collection with
  | none => .error .notInitialized
  | some cname =>
    .ok { s with client := { collections := s.client.collections.map fun q =>
      if q.1 == cname then
        (q.1, { q.2 with docs := q.2.docs.filter fun d => !(ids.contains d.id) })
      else q } }

/-! ## initDBfromCSV (the ingestion pipeline) -/

/-- One CSV row: source name and URL, the header row skipped by the reader. -/
structure Article where
  Source : String
  URL : String

/-- One per-article outcome of initDBfromCSV. -/
structure IngestResult where
  success : Bool
  url : String
  error : Option DBError

/-- What a TS template literal renders for the nullable time: null prints as
the text null. -/
def timeText (t : Option String) : String := t.getD "null"

/-- The string a parsed JSON field contributes where TS uses it as a string
after the unchecked cast; validated chunks always carry the str form. -/
def jstrOrEmpty : JVal → String
  | .str s => s
  | .nonStr => ""

/-- The composed content of one chunk document: the template literal of
initDBfromCSV, its indentation whitespace included. -/
def chunkContent (chunk : RawBlock) (scraped : ProcessedArticle) (URL : String) : String :=
  "\n                #" ++ jstrOrEmpty chunk.heading ++ "\n\n                " ++
    jstrOrEmpty chunk.content ++ "\n\n                Publication date:" ++
    timeText scraped.time ++ "\n                url:" ++ URL ++ "\n\n                "

/-- The metadata of one chunk document. -/
def chunkMeta (chunk : RawBlock) (scraped : ProcessedArticle) (art : Article) : Metadata :=
  [("category", .str "article"),
   ("title", .str scraped.title),
   ("chunkTitle", .str (jstrOrEmpty chunk.heading)),
   ("time", .str (scraped.time.getD "unknown")),
   ("url", .str art.URL),
   ("source", .str art.Source)]

/-- The documents built for one article: per chunk the id URL-uuid-index
(the uuid oracle models uuidv4), the composed content, no precomputed
embedding and the chunk metadata. -/
def articleChunks (uuid : String → Nat → String) (scraped : ProcessedArticle)
    (blocks : List RawBlock) (art : Article) : List DocumentData :=
  blocks.enum.map fun q =>
    { id := art.URL ++ "-" ++ uuid art.URL q.1 ++ "-" ++ toString q.1,
      content := chunkContent q.2 scraped art.URL,
      embedding := none,
      metadata := some (chunkMeta q.2 scraped art) }

/-- Everything one article's task computes before the store write: the fetch
(which cannot throw, C8), the chunk extraction (which cannot throw, C5) and
the chunk-to-document mapping. -/
def articleDocs (fetch : String → Except String Page)
    (genO : String → Nat → Except String ParseOut) (uuid : String → Nat → String)
    (art : Article) : List DocumentData :=
  let scraped := scrapeArticle fetch art.URL
  articleChunks uuid scraped (getClusteredText genO scraped.content) art

/-- One article's task of initDBfromCSV: build the documents and add them.
The addDocuments outcome is the oracle addO, keyed by the documents, since
sibling adds of one batch run concurrently over the shared collection; only
the thrown-or-not outcome reaches this task. A thrown error is caught here
and recorded as a failure of this article only. -/
def processArticle (fetch : String → Except String Page)
    (genO : String → Nat → Except String ParseOut)
    (addO : List DocumentData → Except DBError Unit) (uuid : String → Nat → String)
    (art : Article) : IngestResult :=
  match addO (articleDocs fetch genO uuid art) with
  | .ok _ => { success := true, url := art.URL, error := none }
  | .error e => { success := false, url := art.URL, error := some e }

def BATCH_SIZE : Nat := 5

/-- The slicing loop of initDBfromCSV, fuel-driven so that concrete calls
evaluate by rfl; batches below ties the fuel to the list length. -/
def batchesAux : Nat → List α → List (List α)
  | 0, _ => []
  | _, [] => []
  | fuel + 1, a :: l => (a :: l).take BATCH_SIZE :: batchesAux fuel ((a :: l).drop BATCH_SIZE)

/-- The batches of the article list: the slices of BATCH_SIZE in list
order. -/
def batches (l : List α) : List (List α) := batchesAux l.length l

/-- initDBfromCSV: read the CSV (an error there escapes through the outer
catch), then process the batches strictly in order, each batch's results in
article order, all results concatenated. -/
def initDBfromCSV (fetch : String → Except String Page)
    (genO : String → Nat → Except String ParseOut)
    (addO : List DocumentData → Except DBError Unit) (uuid : String → Nat → String)
    (readOutcome : Except String (List Article)) : Except String (List IngestResult) :=
  match readOutcome with
  | .error e => .error e
  | .ok dataCSV =>
    .ok ((batches dataCSV).map fun batch =>
      batch.map (processArticle fetch genO addO uuid)).flatten

/-! ## The event trace of one ingestion run (for the scheduling claim)

Under the single-threaded event loop, Promise.all over batch.map launches
every task of the batch synchronously in order; a task suspends at its first
await, so no task of the batch can settle before all are launched; the
enclosing await resumes the loop only once all have settled, so the next
batch's first launch follows the current batch's last settlement. The trace
below is that order, with the settle order inside one batch left to the
scheduling oracle σs. -/

/-- Scheduling events of one ingestion run: the launch and the settling of
the article at position idx of batch k. -/
inductive IngestEvent where
  | start (batch idx : Nat)
  | settle (batch idx : Nat)
deriving DecidableEq

/-- The events of one batch: all launches in position order, then all
settlements in the order σ, a permutation of the batch positions. -/
def batchEvents (k : Nat) (bsize : Nat) (σ : List Nat) : List IngestEvent :=
  (List.range bsize).map (.start k) ++ σ.map (.settle k)

/-- The per-batch event blocks of one ingestion run, in batch order. -/
def traceBlocks (σs : Nat → List Nat) (l : List α) : List (List IngestEvent) :=
  (batches l).enum.map fun q => batchEvents q.1 q.2.length (σs q.1)

/-- The full event trace of initDBfromCSV: the batches strictly in order. -/
def ingestTrace (σs : Nat → List Nat) (l : List α) : List IngestEvent :=
  (traceBlocks σs l).flatten

def isStart : IngestEvent → Bool
  | .start _ _ => true
  | .settle _ _ => false

/-- How many articles a trace fragment launches. -/
def countStarts (t : List IngestEvent) : Nat := t.countP isStart

/-- How many articles a trace fragment settles. -/
def countSettles (t : List IngestEvent) : Nat := t.countP fun e => !isStart e

/-! ## The agent handler's context computation -/

/-- The context computation of the express agent handler: the first URL-regex
match in the query routes to a direct fetch of that resource, whose composed
content is the context and the vector index is never consulted; with no
match the store is queried with topK 7 and the returned contents are joined
with the three-newline separator. Errors of the store path reach the
handler's catch clause. -/
def agentContext (fetch : String → Except String Page)
    (provider : String → Except String (List Float))
    (idx : List Float → Nat → QueryResults) (s : DBState) (query : String) :
    Except DBError String :=
  match firstUrl? query.toList with
  | some url => .ok (scrapeArticle fetch url).content
  | none =>
    (queryDocuments provider idx s query 7).map fun chunks =>
      String.intercalate "\n\n\n" (chunks.map fun c => c.content)

/-- How many collections of the given name the server holds. -/
def countName (name : String) (s : DBState) : Nat :=
  s.client.collections.countP fun q => q.1 == name

/-! ## Helper lemmas -/

/-- One unfolding step of the retry loop. -/
theorem clusterLoop_succ (o : Nat → Except String ParseOut) (attempt fuel : Nat) :
    clusterLoop o attempt (fuel + 1) =
      match o attempt with
      | .ok (.arr bs) => if bs.all blockValid then bs else clusterLoop o (attempt + 1) fuel
      | .ok .nonArr => clusterLoop o (attempt + 1) fuel
      | .error _ => clusterLoop o (attempt + 1) fuel := rfl

/-- The retry loop returns only all-valid lists, and a non-empty return is
the parsed array of one of the attempted calls. -/
theorem clusterLoop_spec (o : Nat → Except String ParseOut) (fuel : Nat) : ∀ attempt,
    (clusterLoop o attempt fuel).all blockValid = true ∧
    (clusterLoop o attempt fuel = [] ∨
      ∃ i, attempt ≤ i ∧ i < attempt + fuel ∧
        o i = .ok (.arr (clusterLoop o attempt fuel))) := by
  induction fuel with
  | zero => exact fun attempt => ⟨rfl, Or.inl rfl⟩
  | succ fuel ih =>
    intro attempt
    rw [clusterLoop_succ]
    rcases ih (attempt + 1) with ⟨ih1, ih2⟩
    have hnext :
        (clusterLoop o (attempt + 1) fuel).all blockValid = true ∧
        (clusterLoop o (attempt + 1) fuel = [] ∨
          ∃ i, attempt ≤ i ∧ i < attempt + (fuel + 1) ∧
            o i = .ok (.arr (clusterLoop o (attempt + 1) fuel))) := by
      refine ⟨ih1, ?_⟩
      rcases ih2 with h | ⟨i, hi1, hi2, hi3⟩
      · exact Or.inl h
      · exact Or.inr ⟨i, by omega, by omega, hi3⟩
    cases ho : o attempt with
    | error e => exact hnext
    | ok po =>
      cases po with
      | nonArr => exact hnext
      | arr bs =>
        dsimp only
        by_cases hv : bs.all blockValid = true
        · rw [if_pos hv]
          exact ⟨hv, Or.inr ⟨attempt, Nat.le_refl _, by omega, by rw [ho]⟩⟩
        · rw [if_neg hv]
          exact hnext

/-- If one element of the list makes the action fail, the sequenced run
fails. -/
theorem mapExcept_error_of_mem (f : α → Except ε β) (l : List α) (a : α) (e : ε)
    (ha : a ∈ l) (hf : f a = .error e) : ∃ e2, mapExcept f l = .error e2 := by
  induction l with
  | nil => cases ha
  | cons x xs ih =>
    rcases List.mem_cons.mp ha with h | h
    · subst h
      exact ⟨e, by simp only [mapExcept]; rw [hf]; rfl⟩
    · rcases ih h with ⟨e2, he2⟩
      cases hx : f x with
      | error ex => exact ⟨ex, by simp only [mapExcept]; rw [hx]; rfl⟩
      | ok y => exact ⟨e2, by simp only [mapExcept]; rw [hx, he2]; rfl⟩

/-- Every error resolveEmbedding produces is the wrapped embedding
failure. -/
theorem resolveEmbedding_error_eq (provider : String → Except String (List Float))
    (doc : DocumentData) (e : DBError) (h : resolveEmbedding provider doc = .error e) :
    e = .embeddingFailed := by
  unfold resolveEmbedding at h
  cases hd : doc.embedding with
  | some v =>
    rw [hd] at h
    exact Except.noConfusion h
  | none =>
    rw [hd] at h
    unfold generateEmbedding at h
    cases hp : provider doc.content with
    | ok v =>
      rw [hp] at h
      exact Except.noConfusion h
    | error ex =>
      rw [hp] at h
      exact (Except.error.inj h).symm

/-- A document without a precomputed embedding whose provider call fails
makes the whole resolution pass fail with the embedding failure. -/
theorem mapExcept_resolve_error (provider : String → Except String (List Float))
    (l : List DocumentData) (d : DocumentData) (e : String)
    (hd : d ∈ l) (hnone : d.embedding = none) (hfail : provider d.content = .error e) :
    mapExcept (resolveEmbedding provider) l = .error .embeddingFailed := by
  induction l with
  | nil => cases hd
  | cons x xs ih =>
    rcases List.mem_cons.mp hd with h | h
    · subst h
      have hr : resolveEmbedding provider d = .error .embeddingFailed := by
        unfold resolveEmbedding generateEmbedding
        rw [hnone, hfail]
        rfl
      simp only [mapExcept]
      rw [hr]
      rfl
    · cases hx : resolveEmbedding provider x with
      | error ex =>
        have hex := resolveEmbedding_error_eq provider x ex hx
        subst hex
        simp only [mapExcept]
        rw [hx]
        rfl
      | ok y =>
        simp only [mapExcept]
        rw [hx, ih h]
        rfl

/-- After getOrCreateCollection the server holds at least one collection. -/
theorem countCollections_getOrCreate_pos (s : DBState) (name : String) (meta : Metadata) :
    0 < countCollections (getOrCreateCollection s name meta) := by
  unfold getOrCreateCollection lookupCollection countCollections
  cases hf : s.client.collections.find? (fun q => q.1 == name) with
  | none => simp
  | some q =>
    simp only [Option.map_some']
    exact List.length_pos_of_mem (List.mem_of_find?_eq_some hf)

/-- getOrCreateCollection stores the handle. -/
theorem getOrCreate_handle (s : DBState) (name : String) (meta : Metadata) :
    (getOrCreateCollection s name meta).collection = some name := by
  unfold getOrCreateCollection
  cases lookupCollection s.client name <;> rfl

/-- After getOrCreateCollection the named collection exists. -/
theorem lookup_getOrCreate (s : DBState) (name : String) (meta : Metadata) :
    ∃ c, lookupCollection (getOrCreateCollection s name meta).client name = some c := by
  unfold getOrCreateCollection lookupCollection
  cases hf : s.client.collections.find? (fun q => q.1 == name) with
  | some q => exact ⟨q.2, by simp [hf]⟩
  | none =>
    refine ⟨{ meta := meta, docs := [] }, ?_⟩
    simp [List.find?_append, hf]

/-- Opening an existing collection while already holding its handle changes
nothing. -/
theorem getOrCreate_of_found (s : DBState) (name : String) (meta : Metadata)
    (c : CollectionData) (hc : lookupCollection s.client name = some c)
    (hh : s.collection = some name) : getOrCreateCollection s name meta = s := by
  unfold getOrCreateCollection
  rw [hc, ← hh]

/-- initializeCollection never runs the backfill: the get-or-create step
guarantees a collection exists, so the zero-collections test is never
true. -/
theorem initializeCollection_spec (backfill : DBState → DBState) (s : DBState)
    (name : String) :
    initializeCollection backfill s name =
      ⟨getOrCreateCollection s name cosineMeta, false⟩ := by
  unfold initializeCollection
  rw [if_neg (Nat.pos_iff_ne_zero.mp (countCollections_getOrCreate_pos s name cosineMeta))]

/-- With enough fuel the slicing loop is fuel-independent: concatenating the
slices gives the list back. -/
theorem flatten_batchesAux : ∀ (fuel : Nat) (l : List α), l.length ≤ fuel →
    (batchesAux fuel l).flatten = l := by
  intro fuel
  induction fuel with
  | zero =>
    intro l hl
    rw [Nat.le_zero] at hl
    rw [List.eq_nil_of_length_eq_zero hl]
    rfl
  | succ fuel ih =>
    intro l hl
    cases l with
    | nil => rfl
    | cons a t =>
      show ((a :: t).take BATCH_SIZE :: batchesAux fuel ((a :: t).drop BATCH_SIZE)).flatten
        = a :: t
      rw [List.flatten_cons, ih ((a :: t).drop BATCH_SIZE) (by simp [BATCH_SIZE] at hl ⊢; omega),
        List.take_append_drop]

/-- Concatenating the batches gives the article list back: the slices
partition the list in order. -/
theorem flatten_batches (l : List α) : (batches l).flatten = l :=
  flatten_batchesAux l.length l (Nat.le_refl _)

/-- Every slice the loop produces has at most BATCH_SIZE elements. -/
theorem batchesAux_length_le : ∀ (fuel : Nat) (l : List α) (k : Nat) (b : List α),
    (batchesAux fuel l).get? k = some b → b.length ≤ BATCH_SIZE := by
  intro fuel
  induction fuel with
  | zero =>
    intro l k b h
    cases l <;> cases k <;> exact Option.noConfusion h
  | succ fuel ih =>
    intro l k b h
    cases l with
    | nil => cases k <;> exact Option.noConfusion h
    | cons a t =>
      cases k with
      | zero =>
        have hb : (a :: t).take BATCH_SIZE = b := Option.some.inj h
        rw [← hb]
        exact List.length_take_le _ _
      | succ k => exact ih ((a :: t).drop BATCH_SIZE) k b h

/-- Every batch has at most BATCH_SIZE elements. -/
theorem batches_length_le (l : List α) (k : Nat) (b : List α)
    (h : (batches l).get? k = some b) : b.length ≤ BATCH_SIZE :=
  batchesAux_length_le l.length l k b h

/-! ## Claim theorems -/

/-- Claim C5: every sequence getClusteredText returns is either all-valid —
every element has a string heading, a string content, and content length at
least MIN_CONTENT_LENGTH, all-or-nothing per attempt — or the empty
sequence; a non-empty return is the parsed array of one of the at most
MAX_RETRIES attempts. The return type carries no error: the function never
throws. -/
theorem getClusteredText_fail_soft (genO : String → Nat → Except String ParseOut)
    (text : String) :
    (getClusteredText genO text).all blockValid = true ∧
    (getClusteredText genO text = [] ∨
      ∃ i, i < MAX_RETRIES ∧
        genO (text.replace "\x22" "\x27") i = .ok (.arr (getClusteredText genO text))) := by
  have h := clusterLoop_spec (genO (text.replace "\x22" "\x27")) MAX_RETRIES 0
  unfold getClusteredText
  rcases h with ⟨h1, h2⟩
  refine ⟨h1, ?_⟩
  rcases h2 with h2 | ⟨i, _, hi2, hi3⟩
  · exact Or.inl h2
  · exact Or.inr ⟨i, by omega, hi3⟩

/-- Claim C8: whenever the fetch fails, scrapeArticle returns the sentinel
record with the fixed title, empty content, the requested url and null time;
the total return type shows the error never propagates. -/
theorem scrapeArticle_sentinel (fetch : String → Except String Page) (url e : String)
    (h : fetch url = .error e) :
    scrapeArticle fetch url =
      { title := "Can not load information", content := "", url := url, time := none } := by
  unfold scrapeArticle
  rw [h]
  rfl

/-- Witness for C8 at a concrete failing fetch. -/
theorem scrapeArticle_sentinel_witness :
    scrapeArticle (fun _ => .error "timeout of 10000ms exceeded") "https://example.com/a" =
      { title := "Can not load information", content := "", url := "https://example.com/a",
        time := none } :=
  scrapeArticle_sentinel (fun _ => .error "timeout of 10000ms exceeded")
    "https://example.com/a" "timeout of 10000ms exceeded" rfl

/-- Claim C2: initializing twice with the same name creates no duplicate —
after the first call the server holds max 1 k collections of that name
(k the count before), and the second call changes nothing at all — and the
backfill flag of both calls is false: because getOrCreateCollection leaves at
least one collection on the server, the zero-collections backfill test never
fires after creation, so in particular a backfill is never re-triggered once
the collection is non-empty. -/
theorem initializeCollection_idempotent (backfill : DBState → DBState) (s : DBState)
    (name : String) :
    (initializeCollection backfill s name).backfillTriggered = false ∧
    (initializeCollection backfill
        (initializeCollection backfill s name).state name).backfillTriggered = false ∧
    (initializeCollection backfill
        (initializeCollection backfill s name).state name).state
      = (initializeCollection backfill s name).state ∧
    countName name (initializeCollection backfill s name).state
      = max 1 (countName name s) := by
  rw [initializeCollection_spec backfill s name]
  have hhandle := getOrCreate_handle s name cosineMeta
  rcases lookup_getOrCreate s name cosineMeta with ⟨c, hc⟩
  have hsecond :
      getOrCreateCollection (getOrCreateCollection s name cosineMeta) name cosineMeta
        = getOrCreateCollection s name cosineMeta :=
    getOrCreate_of_found (getOrCreateCollection s name cosineMeta) name cosineMeta c hc hhandle
  refine ⟨rfl, ?_, ?_, ?_⟩
  · rw [initializeCollection_spec, hsecond]
  · rw [initializeCollection_spec, hsecond]
  · cases hf : s.client.collections.find? (fun q => q.1 == name) with
    | some q =>
      have hgoc : getOrCreateCollection s name cosineMeta = { s with collection := some name } := by
        unfold getOrCreateCollection lookupCollection
        rw [hf]
        rfl
      rw [hgoc]
      have hq := List.find?_some hf
      have hpos : 0 < countName name s :=
        List.countP_pos_iff.mpr ⟨q, List.mem_of_find?_eq_some hf, hq⟩
      have hsame : countName name { s with collection := some name } = countName name s := rfl
      rw [hsame]
      omega
    | none =>
      have hgoc : getOrCreateCollection s name cosineMeta =
          { client := { collections := s.client.collections ++
              [(name, { meta := cosineMeta, docs := [] })] }, collection := some name } := by
        unfold getOrCreateCollection lookupCollection
        rw [hf]
        rfl
      rw [hgoc]
      have hzero : countName name s = 0 :=
        List.countP_eq_zero.mpr (List.find?_eq_none.mp hf)
      unfold countName at hzero ⊢
      simp [List.countP_append, hzero, List.countP_cons]

/-- Claim C3: one failing embedding of a document lacking a precomputed one
makes the whole addDocuments call fail with the embedding failure; the error
outcome carries no state, so the batch write never happens and the store is
unchanged. -/
theorem addDocuments_all_or_nothing (provider : String → Except String (List Float))
    (s : DBState) (documents : List DocumentData) (cname : String)
    (d : DocumentData) (e : String)
    (hs : s.collection = some cname) (hd : d ∈ documents)
    (hnone : d.embedding = none) (hfail : provider d.content = .error e) :
    addDocuments provider s documents = .error .embeddingFailed := by
  unfold addDocuments
  rw [hs, mapExcept_resolve_error provider documents d e hd hnone hfail]
  rfl

/-- Witness for C3: a one-document batch with a failing provider. -/
theorem addDocuments_all_or_nothing_witness :
    addDocuments (fun _ => .error "provider down")
      { client := { collections := [("test_rag", { meta := cosineMeta, docs := [] })] },
        collection := some "test_rag" }
      [{ id := "doc-1", content := "text", embedding := none, metadata := none }]
      = .error .embeddingFailed :=
  addDocuments_all_or_nothing (fun _ => .error "provider down")
    { client := { collections := [("test_rag", { meta := cosineMeta, docs := [] })] },
      collection := some "test_rag" }
    [{ id := "doc-1", content := "text", embedding := none, metadata := none }] "test_rag"
    { id := "doc-1", content := "text", embedding := none, metadata := none } "provider down"
    rfl (List.mem_singleton.mpr rfl) rfl rfl

/-- Claim C7: with no collection handle, every store operation fails with
the dedicated not-initialized error for every choice of the embedding and
index oracles — so neither is ever contacted — and that error is distinct
from the store, invalid-response and embedding errors. -/
theorem uninitialized_guard (s : DBState) (h : s.collection = none) :
    (∀ provider documents,
        addDocuments provider s documents = .error .notInitialized) ∧
    (∀ provider idx queryText topK,
        queryDocuments provider idx s queryText topK = .error .notInitialized) ∧
    (∀ document, updateDocument s document = .error .notInitialized) ∧
    (∀ ids, deleteDocuments s ids = .error .notInitialized) ∧
    (∀ msg, DBError.notInitialized ≠ DBError.store msg) ∧
    DBError.notInitialized ≠ DBError.invalidResponse ∧
    DBError.notInitialized ≠ DBError.embeddingFailed := by
  refine ⟨?_, ?_, ?_, ?_, ?_, ?_, ?_⟩
  · intro provider documents
    unfold addDocuments
    rw [h]
  · intro provider idx queryText topK
    unfold queryDocuments
    rw [h]
  · intro document
    unfold updateDocument
    rw [h]
  · intro ids
    unfold deleteDocuments
    rw [h]
  · intro msg hx
    exact DBError.noConfusion hx
  · intro hx
    exact DBError.noConfusion hx
  · intro hx
    exact DBError.noConfusion hx

/-- Witness for C7 at the freshly constructed instance state. -/
theorem uninitialized_guard_witness :
    (∀ provider documents,
        addDocuments provider { client := { collections := [] }, collection := none } documents
          = .error .notInitialized) ∧
    (∀ provider idx queryText topK,
        queryDocuments provider idx { client := { collections := [] }, collection := none }
          queryText topK = .error .notInitialized) ∧
    (∀ document,
        updateDocument { client := { collections := [] }, collection := none } document
          = .error .notInitialized) ∧
    (∀ ids,
        deleteDocuments { client := { collections := [] }, collection := none } ids
          = .error .notInitialized) ∧
    (∀ msg, DBError.notInitialized ≠ DBError.store msg) ∧
    DBError.notInitialized ≠ DBError.invalidResponse ∧
    DBError.notInitialized ≠ DBError.embeddingFailed :=
  uninitialized_guard { client := { collections := [] }, collection := none } rfl

/-- Claim C1: ingesting N articles via initDBfromCSV yields exactly N
per-article results, the result at each position depending only on that
article (so neither the rest of its batch nor later batches are aborted by
one failure); a per-article add error is caught and recorded as a failure
record with that article's url, and an article whose add succeeds yields a
success record. -/
theorem initDBfromCSV_isolation (fetch : String → Except String Page)
    (genO : String → Nat → Except String ParseOut)
    (addO : List DocumentData → Except DBError Unit) (uuid : String → Nat → String)
    (articles : List Article) :
    initDBfromCSV fetch genO addO uuid (.ok articles)
      = .ok (articles.map (processArticle fetch genO addO uuid)) ∧
    (articles.map (processArticle fetch genO addO uuid)).length = articles.length ∧
    (∀ art, (processArticle fetch genO addO uuid art).url = art.URL) ∧
    (∀ art, ((processArticle fetch genO addO uuid art).success = true ↔
      addO (articleDocs fetch genO uuid art) = .ok ())) ∧
    (∀ art e, addO (articleDocs fetch genO uuid art) = .error e →
      processArticle fetch genO addO uuid art
        = { success := false, url := art.URL, error := some e }) := by
  refine ⟨?_, List.length_map _ _, ?_, ?_, ?_⟩
  · unfold initDBfromCSV
    dsimp only
    rw [← List.map_flatten, flatten_batches]
  · intro art
    unfold processArticle
    cases addO (articleDocs fetch genO uuid art) <;> rfl
  · intro art
    unfold processArticle
    cases ha : addO (articleDocs fetch genO uuid art) with
    | ok u => cases u; simp
    | error e => simp
  · intro art e ha
    unfold processArticle
    rw [ha]

/-- Claim C4: when the query holds a URL-shaped substring the agent context
is the composed content of a direct fetch of the first match, independent of
the embedding and index oracles (the vector index is never queried); with no
match it is the topK-7 store query with the contents joined by the
three-newline separator, independent of the fetch oracle (fetch is never
called). -/
theorem agentContext_routing (fetch fetch2 : String → Except String Page)
    (provider provider2 : String → Except String (List Float))
    (idx idx2 : List Float → Nat → QueryResults) (s : DBState) (query : String) :
    (∀ url, firstUrl? query.toList = some url →
      agentContext fetch provider idx s query = .ok (scrapeArticle fetch url).content ∧
      agentContext fetch provider idx s query = agentContext fetch provider2 idx2 s query) ∧
    (firstUrl? query.toList = none →
      agentContext fetch provider idx s query =
        (queryDocuments provider idx s query 7).map (fun chunks =>
          String.intercalate "\n\n\n" (chunks.map fun c => c.content)) ∧
      agentContext fetch provider idx s query = agentContext fetch2 provider idx s query) := by
  constructor
  · intro url hu
    unfold agentContext
    rw [hu]
    exact ⟨rfl, rfl⟩
  · intro hn
    unfold agentContext
    rw [hn]
    exact ⟨rfl, rfl⟩

/-- Witness for C4 at the two example queries: the first routes to the
direct fetch of its URL, the second to the store query. -/
theorem agentContext_routing_witness :
    (agentContext (fun _ => .error "x") (fun _ => .ok []) (fun _ _ => ⟨none, none, none, none⟩)
        { client := { collections := [] }, collection := none }
        "summarize https://example.com/a"
      = .ok (scrapeArticle (fun _ => .error "x") "https://example.com/a").content) ∧
    (agentContext (fun _ => .error "x") (fun _ => .ok []) (fun _ _ => ⟨none, none, none, none⟩)
        { client := { collections := [] }, collection := none }
        "what happened in city X"
      = (queryDocuments (fun _ => .ok []) (fun _ _ => ⟨none, none, none, none⟩)
          { client := { collections := [] }, collection := none }
          "what happened in city X" 7).map (fun chunks =>
            String.intercalate "\n\n\n" (chunks.map fun c => c.content))) :=
  ⟨((agentContext_routing (fun _ => .error "x") (fun _ => .error "x") (fun _ => .ok [])
      (fun _ => .ok []) (fun _ _ => ⟨none, none, none, none⟩)
      (fun _ _ => ⟨none, none, none, none⟩)
      { client := { collections := [] }, collection := none }
      "summarize https://example.com/a").1 "https://example.com/a" rfl).1,
   ((agentContext_routing (fun _ => .error "x") (fun _ => .error "x") (fun _ => .ok [])
      (fun _ => .ok []) (fun _ _ => ⟨none, none, none, none⟩)
      (fun _ _ => ⟨none, none, none, none⟩)
      { client := { collections := [] }, collection := none }
      "what happened in city X").2 rfl).1⟩

/-- Sequencing a pointwise successful action returns the mapped list. -/
theorem mapExcept_ok_of_fn (f : α → Except ε β) (g : α → β) (hf : ∀ a, f a = .ok (g a)) :
    ∀ l : List α, mapExcept f l = .ok (l.map g) := by
  intro l
  induction l with
  | nil => rfl
  | cons x xs ih =>
    simp only [mapExcept]
    rw [hf x, ih]
    rfl

/-- queryDocuments on a well-shaped index response: one record per id of the
first row, in the row's order. -/
theorem queryDocuments_ok (provider : String → Except String (List Float))
    (idx : List Float → Nat → QueryResults) (s : DBState) (queryText : String)
    (topK : Nat) (cname : String) (qe : List Float)
    (ids0 : List String) (idsT : List (List String))
    (docs0 : List (Option String)) (docsT : List (List (Option String)))
    (emb0 : List (List Float)) (embT : List (List (List Float)))
    (meta0 : List Metadata) (metaT : List (List Metadata))
    (hs : s.collection = some cname) (hp : provider queryText = .ok qe)
    (hidx : idx qe topK =
      { ids := some (ids0 :: idsT), documents := some (docs0 :: docsT),
        embeddings := some (emb0 :: embT), metadatas := some (meta0 :: metaT) }) :
    queryDocuments provider idx s queryText topK =
      .ok (ids0.enum.map fun q =>
        { id := q.2, content := ((docs0.get? q.1).join).getD "",
          embedding := emb0.get? q.1, metadata := meta0.get? q.1 }) := by
  have h1 : generateEmbedding provider queryText = .ok qe := by
    unfold generateEmbedding
    rw [hp]
  unfold queryDocuments
  rw [hs]
  dsimp only
  rw [h1]
  dsimp only [Except.bind]
  rw [hidx]
  dsimp only
  exact mapExcept_ok_of_fn _ _ (fun a => rfl) ids0.enum

/-- queryDocuments on a response with a missing field: the invalid-response
error. -/
theorem queryDocuments_shape (provider : String → Except String (List Float))
    (idx : List Float → Nat → QueryResults) (s : DBState) (queryText : String)
    (topK : Nat) (cname : String) (qe : List Float)
    (hs : s.collection = some cname) (hp : provider queryText = .ok qe)
    (hmiss : (idx qe topK).ids = none ∨ (idx qe topK).documents = none ∨
      (idx qe topK).embeddings = none ∨ (idx qe topK).metadatas = none) :
    queryDocuments provider idx s queryText topK = .error .invalidResponse := by
  have h1 : generateEmbedding provider queryText = .ok qe := by
    unfold generateEmbedding
    rw [hp]
  unfold queryDocuments
  rw [hs]
  dsimp only
  rw [h1]
  dsimp only [Except.bind]
  rcases hmiss with h | h | h | h
  · rw [h]
  · cases hi : (idx qe topK).ids with
    | none => rfl
    | some v => rw [h]
  · cases hi : (idx qe topK).ids with
    | none => rfl
    | some v =>
      cases hd : (idx qe topK).documents with
      | none => rfl
      | some w => rw [h]
  · cases hi : (idx qe topK).ids with
    | none => rfl
    | some v =>
      cases hd : (idx qe topK).documents with
      | none => rfl
      | some w =>
        cases he : (idx qe topK).embeddings with
        | none => rfl
        | some x => rw [h]

/-- Claim C6: queryDocuments defaults topK to 5 (the two calls are the same
function value); with the query text embedded, a response of the index call
missing any of ids, documents, embeddings or metadatas fails with the
invalid-response store error; and a well-shaped response is reconstituted
into one Document record per id, in the index's returned (similarity
descending) order, with id, content, embedding and metadata drawn from the
response at the same position. -/
theorem queryDocuments_contract (provider : String → Except String (List Float))
    (idx : List Float → Nat → QueryResults) (s : DBState) (queryText : String)
    (cname : String) (hs : s.collection = some cname) :
    (queryDocuments provider idx s queryText = queryDocuments provider idx s queryText 5) ∧
    (∀ qe topK, provider queryText = .ok qe →
      ((idx qe topK).ids = none ∨ (idx qe topK).documents = none ∨
        (idx qe topK).embeddings = none ∨ (idx qe topK).metadatas = none) →
      queryDocuments provider idx s queryText topK = .error .invalidResponse) ∧
    (∀ qe topK ids0 idsT docs0 docsT emb0 embT meta0 metaT,
      provider queryText = .ok qe →
      idx qe topK =
        { ids := some (ids0 :: idsT), documents := some (docs0 :: docsT),
          embeddings := some (emb0 :: embT), metadatas := some (meta0 :: metaT) } →
      queryDocuments provider idx s queryText topK =
        .ok (ids0.enum.map fun q =>
          { id := q.2, content := ((docs0.get? q.1).join).getD "",
            embedding := emb0.get? q.1, metadata := meta0.get? q.1 })) := by
  refine ⟨rfl, ?_, ?_⟩
  · intro qe topK hp hmiss
    exact queryDocuments_shape provider idx s queryText topK cname qe hs hp hmiss
  · intro qe topK ids0 idsT docs0 docsT emb0 embT meta0 metaT hp hidx
    exact queryDocuments_ok provider idx s queryText topK cname qe ids0 idsT docs0 docsT
      emb0 embT meta0 metaT hs hp hidx

/-- Witness for C6 at a concrete initialized store with an all-missing index
response shape. -/
theorem queryDocuments_contract_witness :
    (queryDocuments (fun _ => .ok []) (fun _ _ => ⟨none, none, none, none⟩)
        { client := { collections := [("test_rag", { meta := cosineMeta, docs := [] })] },
          collection := some "test_rag" } "what happened"
      = queryDocuments (fun _ => .ok []) (fun _ _ => ⟨none, none, none, none⟩)
        { client := { collections := [("test_rag", { meta := cosineMeta, docs := [] })] },
          collection := some "test_rag" } "what happened" 5) ∧
    (∀ qe topK, (fun _ : String => Except.ok (ε := String) ([] : List Float)) "what happened"
        = .ok qe →
      (((fun _ : List Float => fun _ : Nat =>
          (⟨none, none, none, none⟩ : QueryResults)) qe topK).ids = none ∨
        ((fun _ : List Float => fun _ : Nat =>
          (⟨none, none, none, none⟩ : QueryResults)) qe topK).documents = none ∨
        ((fun _ : List Float => fun _ : Nat =>
          (⟨none, none, none, none⟩ : QueryResults)) qe topK).embeddings = none ∨
        ((fun _ : List Float => fun _ : Nat =>
          (⟨none, none, none, none⟩ : QueryResults)) qe topK).metadatas = none) →
      queryDocuments (fun _ => .ok []) (fun _ _ => ⟨none, none, none, none⟩)
        { client := { collections := [("test_rag", { meta := cosineMeta, docs := [] })] },
          collection := some "test_rag" } "what happened" topK = .error .invalidResponse) ∧
    (∀ qe topK ids0 idsT docs0 docsT emb0 embT meta0 metaT,
      (fun _ : String => Except.ok (ε := String) ([] : List Float)) "what happened" = .ok qe →
      (fun _ : List Float => fun _ : Nat => (⟨none, none, none, none⟩ : QueryResults)) qe topK
        = { ids := some (ids0 :: idsT), documents := some (docs0 :: docsT),
              embeddings := some (emb0 :: embT), metadatas := some (meta0 :: metaT) } →
      queryDocuments (fun _ => .ok []) (fun _ _ => ⟨none, none, none, none⟩)
        { client := { collections := [("test_rag", { meta := cosineMeta, docs := [] })] },
          collection := some "test_rag" } "what happened" topK =
        .ok (ids0.enum.map fun q =>
          { id := q.2, content := ((docs0.get? q.1).join).getD "",
            embedding := emb0.get? q.1, metadata := meta0.get? q.1 })) :=
  queryDocuments_contract (fun _ => .ok []) (fun _ _ => ⟨none, none, none, none⟩)
    { client := { collections := [("test_rag", { meta := cosineMeta, docs := [] })] },
      collection := some "test_rag" } "what happened" "test_rag" rfl

/-- Claim C10: on a response passing the shape check, the per-id mapping is
total: a document text that is null, or missing because its row is shorter
than the id row, yields a record whose content is the empty string and no
error, while the id and the same-position embedding and metadata are carried
over from the response. -/
theorem queryDocuments_null_text (provider : String → Except String (List Float))
    (idx : List Float → Nat → QueryResults) (s : DBState) (queryText : String)
    (topK : Nat) (cname : String) (qe : List Float)
    (ids0 : List String) (idsT : List (List String))
    (docs0 : List (Option String)) (docsT : List (List (Option String)))
    (emb0 : List (List Float)) (embT : List (List (List Float)))
    (meta0 : List Metadata) (metaT : List (List Metadata)) (i : Nat)
    (hs : s.collection = some cname) (hp : provider queryText = .ok qe)
    (hidx : idx qe topK =
      { ids := some (ids0 :: idsT), documents := some (docs0 :: docsT),
        embeddings := some (emb0 :: embT), metadatas := some (meta0 :: metaT) })
    (hi : i < ids0.length)
    (hnull : docs0.get? i = none ∨ docs0.get? i = some none) :
    ∃ l, queryDocuments provider idx s queryText topK = .ok l ∧
      l.get? i = some
        { id := ids0.get ⟨i, hi⟩, content := "",
          embedding := emb0.get? i, metadata := meta0.get? i } := by
  refine ⟨_, queryDocuments_ok provider idx s queryText topK cname qe ids0 idsT docs0 docsT
    emb0 embT meta0 metaT hs hp hidx, ?_⟩
  rw [List.get?_map, List.get?_enum, List.get?_eq_get hi]
  rcases hnull with h | h
  · dsimp only [Option.map_some']
    rw [h]
    rfl
  · dsimp only [Option.map_some']
    rw [h]
    rfl

/-- Witness for C10: a one-id response whose document text is null. -/
theorem queryDocuments_null_text_witness :
    ∃ l, queryDocuments (fun _ => .ok [])
        (fun _ _ =>
          { ids := some [["a"]], documents := some [[none]],
            embeddings := some [[[]]], metadatas := some [[[]]] })
        { client := { collections := [("test_rag", { meta := cosineMeta, docs := [] })] },
          collection := some "test_rag" } "what happened" 5 = .ok l ∧
      l.get? 0 = some
        { id := "a", content := "", embedding := some [], metadata := some [] } :=
  queryDocuments_null_text (fun _ => .ok [])
    (fun _ _ =>
      { ids := some [["a"]], documents := some [[none]],
        embeddings := some [[[]]], metadatas := some [[[]]] })
    { client := { collections := [("test_rag", { meta := cosineMeta, docs := [] })] },
      collection := some "test_rag" } "what happened" 5 "test_rag" []
    ["a"] [] [none] [] [[]] [] [[]] [] 0 rfl rfl rfl (by decide) (Or.inr rfl)

/-! ## Lemmas for the scheduling claim -/

/-- A prefix of a concatenation of blocks is some whole blocks followed by a
prefix of the next block. -/
theorem flatten_take_decomp (blocks : List (List β)) : ∀ n : Nat,
    ∃ j m, blocks.flatten.take n
      = (blocks.take j).flatten ++ (((blocks.get? j).getD []).take m) := by
  induction blocks with
  | nil =>
    intro n
    exact ⟨0, 0, by simp⟩
  | cons b bs ih =>
    intro n
    by_cases hn : n ≤ b.length
    · refine ⟨0, n, ?_⟩
      rw [List.flatten_cons, List.take_append_eq_append_take, Nat.sub_eq_zero_of_le hn]
      simp
    · rcases ih (n - b.length) with ⟨j, m, hjm⟩
      refine ⟨j + 1, m, ?_⟩
      calc (b :: bs).flatten.take n
          = b ++ bs.flatten.take (n - b.length) := by
            rw [List.flatten_cons, List.take_append_eq_append_take,
              List.take_all_of_le (by omega)]
        _ = b ++ ((bs.take j).flatten ++ ((bs.get? j).getD []).take m) := by rw [hjm]
        _ = ((b :: bs).take (j + 1)).flatten ++ (((b :: bs).get? (j + 1)).getD []).take m := by
            rw [List.take_succ_cons, List.flatten_cons, List.get?_cons_succ, List.append_assoc]

/-- The k-th trace block is the event block of the k-th batch. -/
theorem traceBlocks_get? (σs : Nat → List Nat) (l : List α) (k : Nat) :
    (traceBlocks σs l).get? k
      = ((batches l).get? k).map fun b => batchEvents k b.length (σs k) := by
  unfold traceBlocks
  rw [List.get?_map, List.get?_enum]
  cases (batches l).get? k <;> rfl

/-- Membership of a launch event in one batch block. -/
theorem mem_start_batchEvents (k2 i k bsize : Nat) (σ : List Nat) :
    IngestEvent.start k2 i ∈ batchEvents k bsize σ ↔ k2 = k ∧ i < bsize := by
  unfold batchEvents
  constructor
  · intro h
    rcases List.mem_append.mp h with h | h
    · rcases List.mem_map.mp h with ⟨a, ha, heq⟩
      cases heq
      exact ⟨rfl, List.mem_range.mp ha⟩
    · rcases List.mem_map.mp h with ⟨a, _, heq⟩
      cases heq
  · rintro ⟨rfl, hi⟩
    exact List.mem_append_left _ (List.mem_map.mpr ⟨i, List.mem_range.mpr hi, rfl⟩)

/-- Membership of a settle event in one batch block. -/
theorem mem_settle_batchEvents (k2 j k bsize : Nat) (σ : List Nat) :
    IngestEvent.settle k2 j ∈ batchEvents k bsize σ ↔ k2 = k ∧ j ∈ σ := by
  unfold batchEvents
  constructor
  · intro h
    rcases List.mem_append.mp h with h | h
    · rcases List.mem_map.mp h with ⟨a, _, heq⟩
      cases heq
    · rcases List.mem_map.mp h with ⟨a, ha, heq⟩
      cases heq
      exact ⟨rfl, ha⟩
  · rintro ⟨rfl, hj⟩
    exact List.mem_append_right _ (List.mem_map.mpr ⟨j, hj, rfl⟩)

/-- Launch events count as starts. -/
theorem isStart_start (k i : Nat) : isStart (.start k i) = true := rfl

/-- Settle events do not count as starts. -/
theorem isStart_settle (k j : Nat) : isStart (.settle k j) = false := rfl

/-- A batch block launches exactly its batch size. -/
theorem countStarts_batchEvents (k bsize : Nat) (σ : List Nat) :
    countStarts (batchEvents k bsize σ) = bsize := by
  unfold countStarts batchEvents
  rw [List.countP_append, List.countP_map, List.countP_map]
  simp [Function.comp_def, isStart_start, isStart_settle]

/-- A batch block settles exactly the settle-order's length. -/
theorem countSettles_batchEvents (k bsize : Nat) (σ : List Nat) :
    countSettles (batchEvents k bsize σ) = σ.length := by
  unfold countSettles batchEvents
  rw [List.countP_append, List.countP_map, List.countP_map]
  simp [Function.comp_def, isStart_start, isStart_settle]

/-- Concatenating blocks that each launch as many as they settle is
balanced. -/
theorem counts_flatten_balanced (L : List (List IngestEvent))
    (h : ∀ b ∈ L, countStarts b = countSettles b) :
    countStarts L.flatten = countSettles L.flatten := by
  induction L with
  | nil => rfl
  | cons b bs ih =>
    unfold countStarts countSettles at h ih ⊢
    rw [List.flatten_cons, List.countP_append, List.countP_append]
    rw [h b (List.mem_cons_self b bs), ih fun b2 hb2 => h b2 (List.mem_cons_of_mem b hb2)]

/-- An element of a take-prefix sits at an index below the bound. -/
theorem mem_take_get? (L : List β) (j : Nat) (b : β) (hb : b ∈ L.take j) :
    ∃ k, k < j ∧ L.get? k = some b := by
  rcases List.mem_iff_get?.mp hb with ⟨k, hk⟩
  rcases List.get?_eq_some.mp hk with ⟨hlt, _⟩
  have hkj : k < j := by
    have := List.length_take_le j L
    omega
  refine ⟨k, hkj, ?_⟩
  rw [← List.get?_take hkj]
  exact hk

/-- Every trace block is the event block of its batch, balanced and launching
at most BATCH_SIZE. -/
theorem traceBlocks_mem_spec (σs : Nat → List Nat) (l : List α)
    (hσ : ∀ k b, (batches l).get? k = some b → (σs k).Perm (List.range b.length)) :
    ∀ b2 ∈ traceBlocks σs l,
      countStarts b2 = countSettles b2 ∧ countStarts b2 ≤ BATCH_SIZE := by
  intro b2 hb2
  rcases List.mem_iff_get?.mp hb2 with ⟨k, hk⟩
  rw [traceBlocks_get?] at hk
  cases hbk : (batches l).get? k with
  | none =>
    rw [hbk] at hk
    cases hk
  | some b =>
    rw [hbk] at hk
    have hb2eq : b2 = batchEvents k b.length (σs k) := (Option.some.inj hk).symm
    subst hb2eq
    have hlen : (σs k).length = b.length := by
      rw [(hσ k b hbk).length_eq, List.length_range]
    rw [countStarts_batchEvents, countSettles_batchEvents, hlen]
    exact ⟨rfl, batches_length_le l k b hbk⟩

/-- Events of a whole batch below the cut sit in the flattened prefix. -/
theorem block_mem_flatten_take (σs : Nat → List Nat) (l : List α) (k j : Nat)
    (bk : List α) (hk : k < j) (hbk : (batches l).get? k = some bk) :
    ∀ x ∈ batchEvents k bk.length (σs k), x ∈ ((traceBlocks σs l).take j).flatten := by
  intro x hx
  apply List.mem_flatten_of_mem (l := batchEvents k bk.length (σs k)) _ hx
  apply List.get?_mem (n := k)
  rw [List.get?_take hk, traceBlocks_get?, hbk]
  rfl

/-- Claim C9 conjunct: the in-flight bound. At every trace prefix the number
of launched articles exceeds the settled ones by at most BATCH_SIZE. -/
theorem inflight_bound (σs : Nat → List Nat) (l : List α)
    (hσ : ∀ k b, (batches l).get? k = some b → (σs k).Perm (List.range b.length))
    (n : Nat) :
    countStarts ((ingestTrace σs l).take n)
      ≤ countSettles ((ingestTrace σs l).take n) + BATCH_SIZE := by
  unfold ingestTrace
  rcases flatten_take_decomp (traceBlocks σs l) n with ⟨j, m, hjm⟩
  rw [hjm]
  unfold countStarts countSettles
  rw [List.countP_append, List.countP_append]
  have hspec := traceBlocks_mem_spec σs l hσ
  have hbal : countStarts ((traceBlocks σs l).take j).flatten
      = countSettles ((traceBlocks σs l).take j).flatten :=
    counts_flatten_balanced _ fun b hb =>
      (hspec b (List.Sublist.subset (List.take_sublist j _) hb)).1
  have hpart : ((((traceBlocks σs l).get? j).getD []).take m).countP isStart ≤ BATCH_SIZE := by
    cases hgj : (traceBlocks σs l).get? j with
    | none => simp
    | some bj =>
      have h1 : (bj.take m).countP isStart ≤ bj.countP isStart :=
        List.Sublist.countP_le _ (List.take_sublist m bj)
      have h2 : bj.countP isStart ≤ BATCH_SIZE :=
        (hspec bj (List.get?_mem hgj)).2
      simpa using Nat.le_trans h1 h2
  unfold countStarts countSettles at hbal
  omega

/-- Claim C9 conjunct: the batch barrier. Once any article of a later batch
has been launched, every article of batch k has settled. -/
theorem batch_barrier (σs : Nat → List Nat) (l : List α)
    (hσ : ∀ k b, (batches l).get? k = some b → (σs k).Perm (List.range b.length))
    (n k k2 i : Nat) (b : List α) (hkk : k < k2)
    (hstart : IngestEvent.start k2 i ∈ (ingestTrace σs l).take n)
    (hb : (batches l).get? k = some b) :
    ∀ j2, j2 < b.length → IngestEvent.settle k j2 ∈ (ingestTrace σs l).take n := by
  intro j2 hj2
  unfold ingestTrace at hstart ⊢
  rcases flatten_take_decomp (traceBlocks σs l) n with ⟨j, m, hjm⟩
  rw [hjm] at hstart ⊢
  have hsettle_mem : IngestEvent.settle k j2 ∈ batchEvents k b.length (σs k) :=
    (mem_settle_batchEvents k j2 k b.length (σs k)).mpr
      ⟨rfl, (hσ k b hb).mem_iff.mpr (List.mem_range.mpr hj2)⟩
  have hk_lt_j : k < j := by
    rcases List.mem_append.mp hstart with hsA | hsB
    · rcases List.mem_flatten.mp hsA with ⟨blk, hblk, hxblk⟩
      rcases mem_take_get? _ j blk hblk with ⟨kb, hkbj, hkb⟩
      rw [traceBlocks_get?] at hkb
      cases hbkb : (batches l).get? kb with
      | none =>
        rw [hbkb] at hkb
        cases hkb
      | some bb =>
        rw [hbkb] at hkb
        have hblkeq : blk = batchEvents kb bb.length (σs kb) := (Option.some.inj hkb).symm
        subst hblkeq
        have := ((mem_start_batchEvents k2 i kb bb.length (σs kb)).mp hxblk).1
        omega
    · cases hgj : (traceBlocks σs l).get? j with
      | none =>
        rw [hgj] at hsB
        simp at hsB
      | some bj =>
        rw [hgj] at hsB
        simp only [Option.getD_some] at hsB
        have hxbj : IngestEvent.start k2 i ∈ bj :=
          List.Sublist.subset (List.take_sublist m bj) hsB
        rw [traceBlocks_get?] at hgj
        cases hbj2 : (batches l).get? j with
        | none =>
          rw [hbj2] at hgj
          cases hgj
        | some bb =>
          rw [hbj2] at hgj
          have hbjeq : bj = batchEvents j bb.length (σs j) := (Option.some.inj hgj).symm
          subst hbjeq
          have := ((mem_start_batchEvents k2 i j bb.length (σs j)).mp hxbj).1
          omega
  exact List.mem_append_left _
    (block_mem_flatten_take σs l k j b hk_lt_j hb _ hsettle_mem)

/-- Within a batch prefix, a settle event implies every launch of the batch
is already present: the launches all precede the settles. -/
theorem starts_before_settles_partial (k bsize : Nat) (σ : List Nat) (m j2 : Nat)
    (hmem : IngestEvent.settle k j2 ∈ (batchEvents k bsize σ).take m) :
    ∀ i, i < bsize → IngestEvent.start k i ∈ (batchEvents k bsize σ).take m := by
  unfold batchEvents at hmem ⊢
  rw [List.take_append_eq_append_take] at hmem ⊢
  have h1 : IngestEvent.settle k j2 ∉ ((List.range bsize).map (IngestEvent.start k)).take m := by
    intro hc
    rcases List.mem_map.mp (List.Sublist.subset (List.take_sublist _ _) hc) with ⟨a, _, ha⟩
    cases ha
  have h2 := (List.mem_append.mp hmem).resolve_left h1
  have h3 : m - ((List.range bsize).map (IngestEvent.start k)).length ≠ 0 := by
    intro h0
    rw [h0] at h2
    simp at h2
  have hlen : ((List.range bsize).map (IngestEvent.start k)).length = bsize := by
    rw [List.length_map, List.length_range]
  intro i hi
  apply List.mem_append_left
  rw [List.take_all_of_le (by omega)]
  exact List.mem_map.mpr ⟨i, List.mem_range.mpr hi, rfl⟩

/-- Claim C9 conjunct: concurrent launch within one batch. Once any article
of batch k has settled, every article of batch k has been launched. -/
theorem batch_concurrent_launch (σs : Nat → List Nat) (l : List α)
    (n k j2 : Nat) (b : List α)
    (hsettle : IngestEvent.settle k j2 ∈ (ingestTrace σs l).take n)
    (hb : (batches l).get? k = some b) :
    ∀ i, i < b.length → IngestEvent.start k i ∈ (ingestTrace σs l).take n := by
  intro i hi
  unfold ingestTrace at hsettle ⊢
  rcases flatten_take_decomp (traceBlocks σs l) n with ⟨j, m, hjm⟩
  rw [hjm] at hsettle ⊢
  rcases List.mem_append.mp hsettle with hsA | hsB
  · rcases List.mem_flatten.mp hsA with ⟨blk, hblk, hxblk⟩
    rcases mem_take_get? _ j blk hblk with ⟨kb, hkbj, hkb⟩
    rw [traceBlocks_get?] at hkb
    cases hbkb : (batches l).get? kb with
    | none =>
      rw [hbkb] at hkb
      cases hkb
    | some bb =>
      rw [hbkb] at hkb
      have hblkeq : blk = batchEvents kb bb.length (σs kb) := (Option.some.inj hkb).symm
      subst hblkeq
      have hkeq : k = kb := ((mem_settle_batchEvents k j2 kb bb.length (σs kb)).mp hxblk).1
      subst hkeq
      have hbeq : b = bb := by
        rw [hbkb] at hb
        exact (Option.some.inj hb).symm
      subst hbeq
      refine List.mem_append_left _ (block_mem_flatten_take σs l k j b hkbj hbkb _ ?_)
      exact (mem_start_batchEvents k i k b.length (σs k)).mpr ⟨rfl, hi⟩
  · cases hgj : (traceBlocks σs l).get? j with
    | none =>
      rw [hgj] at hsB
      simp at hsB
    | some bj =>
      rw [hgj] at hsB
      simp only [Option.getD_some] at hsB
      have hgj2 := hgj
      rw [traceBlocks_get?] at hgj2
      cases hbj2 : (batches l).get? j with
      | none =>
        rw [hbj2] at hgj2
        cases hgj2
      | some bb =>
        rw [hbj2] at hgj2
        have hbjeq : bj = batchEvents j bb.length (σs j) := (Option.some.inj hgj2).symm
        subst hbjeq
        have hkeq : k = j :=
          ((mem_settle_batchEvents k j2 j bb.length (σs j)).mp
            (List.Sublist.subset (List.take_sublist m _) hsB)).1
        subst hkeq
        have hbeq : b = bb := by
          rw [hbj2] at hb
          exact (Option.some.inj hb).symm
        subst hbeq
        apply List.mem_append_right
        simp only [Option.getD_some]
        exact starts_before_settles_partial k b.length (σs k) m j2 hsB i hi

/-- Claim C9: initDBfromCSV partitions the article list into batches of at
most BATCH_SIZE (five) in list order — flattening the batches restores the
list — and over the event-loop trace of the run (batches strictly in order,
each batch's tasks launched together before any settles, the settle order
within a batch arbitrary): at every trace prefix at most BATCH_SIZE articles
are in flight, a launch belonging to any later batch implies every article
of batch k has settled, and a settle of batch k implies every article of
batch k has already been launched. -/
theorem ingest_schedule (σs : Nat → List Nat) (l : List α)
    (hσ : ∀ k b, (batches l).get? k = some b → (σs k).Perm (List.range b.length)) :
    ((batches l).flatten = l) ∧
    (∀ k b, (batches l).get? k = some b → b.length ≤ BATCH_SIZE) ∧
    (∀ n, countStarts ((ingestTrace σs l).take n)
      ≤ countSettles ((ingestTrace σs l).take n) + BATCH_SIZE) ∧
    (∀ n k k2 i b, k < k2 → IngestEvent.start k2 i ∈ (ingestTrace σs l).take n →
      (batches l).get? k = some b →
      ∀ j2, j2 < b.length → IngestEvent.settle k j2 ∈ (ingestTrace σs l).take n) ∧
    (∀ n k j2 b, IngestEvent.settle k j2 ∈ (ingestTrace σs l).take n →
      (batches l).get? k = some b →
      ∀ i, i < b.length → IngestEvent.start k i ∈ (ingestTrace σs l).take n) := by
  refine ⟨flatten_batches l, fun k b h => batches_length_le l k b h,
    inflight_bound σs l hσ, ?_, ?_⟩
  · intro n k k2 i b hkk hstart hbk
    exact batch_barrier σs l hσ n k k2 i b hkk hstart hbk
  · intro n k j2 b hsettle hbk
    exact batch_concurrent_launch σs l n k j2 b hsettle hbk

/-- Witness for C9: two articles in one batch with the settle order
reversed. -/
theorem ingest_schedule_witness :
    ((batches ["a", "b"]).flatten = ["a", "b"]) ∧
    (∀ k b, (batches ["a", "b"]).get? k = some b → b.length ≤ BATCH_SIZE) ∧
    (∀ n, countStarts ((ingestTrace (fun _ => [1, 0]) ["a", "b"]).take n)
      ≤ countSettles ((ingestTrace (fun _ => [1, 0]) ["a", "b"]).take n) + BATCH_SIZE) ∧
    (∀ n k k2 i b, k < k2 →
      IngestEvent.start k2 i ∈ (ingestTrace (fun _ => [1, 0]) ["a", "b"]).take n →
      (batches ["a", "b"]).get? k = some b →
      ∀ j2, j2 < b.length →
        IngestEvent.settle k j2 ∈ (ingestTrace (fun _ => [1, 0]) ["a", "b"]).take n) ∧
    (∀ n k j2 b,
      IngestEvent.settle k j2 ∈ (ingestTrace (fun _ => [1, 0]) ["a", "b"]).take n →
      (batches ["a", "b"]).get? k = some b →
      ∀ i, i < b.length →
        IngestEvent.start k i ∈ (ingestTrace (fun _ => [1, 0]) ["a", "b"]).take n) :=
  ingest_schedule (fun _ => [1, 0]) ["a", "b"] (by
    intro k b hk
    match k with
    | 0 =>
      have h0 : (batches ["a", "b"]).get? 0 = some ["a", "b"] := rfl
      rw [h0] at hk
      have hb : b = ["a", "b"] := (Option.some.inj hk).symm
      subst hb
      decide
    | k + 1 =>
      rw [show batches ["a", "b"] = [["a", "b"]] from rfl, List.get?_cons_succ] at hk
      cases k <;> exact Option.noConfusion hk)

end RAG
